import Mathlib

/-!
Formal verification of the MobilizeAmerica client
(src/parsons_utilities/mobilize_america.py).

The Python source is shallowly embedded below.  JSON values are the
inductive type JValue; the HTTP layer is modelled by passing the server's
responses (a list of page envelopes) as an explicit argument; Python
exceptions become an error type threaded through Except; the number of
HTTP requests actually issued is returned alongside the result so that
statements of the form "raised before any network call" are expressible.

The classes Table (parsons_utilities.table) and the helper
date_to_timestamp (parsons_utilities.datetime) belong to this repository
but are not present under src/; their definitions below are modelled from
the specification and are marked as such in their doc comments.
-/

/-- A JSON value, as produced by response.json() in the Python source. -/
inductive JValue where
  | null
  | str (s : String)
  | int (n : Int)
  | bool (b : Bool)
  | list (xs : List JValue)
  | obj (fields : List (String × JValue))

/-- Python exceptions that the embedded code can raise. -/
inductive PyError where
  | typeError (msg : String)
  | valueError (msg : String)
  | keyError (key : String)
  | attributeError (msg : String)
  | connectionError
deriving DecidableEq, Repr

/-- Python truthiness of a JSON value (bool(v)). -/
def truthy : JValue → Bool
  | JValue.null => false
  | JValue.str s => !(s == "")
  | JValue.int n => !(n == 0)
  | JValue.bool b => b
  | JValue.list xs => !xs.isEmpty
  | JValue.obj fs => !fs.isEmpty

/-- Python str() of a JSON value (scalars exact; containers are only used
through their scalar leaves in the claims, so their rendering is kept
schematic). -/
def pyStr : JValue → String
  | JValue.null => "None"
  | JValue.str s => s
  | JValue.int n => toString n
  | JValue.bool b => if b then "True" else "False"
  | JValue.list _ => "[...]"
  | JValue.obj _ => "{...}"

/-- One page envelope as returned by the server: the three keys the code
reads from r.json().  A field equal to none models the key being absent
(reading it raises KeyError / the membership test is false). -/
structure Envelope where
  data : Option (List JValue)
  next : Option JValue
  error : Option JValue

/-- Python truthiness of an optional string attribute (None is falsy,
the empty string is falsy). -/
def truthyStr : Option String → Bool
  | none => false
  | some s => !(s == "")

/-- The MobilizeAmerica client object: the attributes set by __init__. -/
structure MobilizeAmerica where
  uri : String
  api_key : Option String

/-- MA_URI at line 14 of the source. -/
def MA_URI : String := "http://events.mobilizeamerica.io/api/v1/"

/-- MobilizeAmerica.__init__ (lines 27-34): self.api_key = api_key or
os.environ.get('MOBILIZE_AMERICA_API_KEY'); the environment variable is an
explicit argument.  A missing key only logs, it does not raise. -/
def MobilizeAmerica.init (api_key envKey : Option String) : MobilizeAmerica :=
  ⟨MA_URI, if truthyStr api_key then api_key else envKey⟩

/-- Python attribute lookup on a MobilizeAmerica instance: only the
attributes assigned in __init__ exist; anything else raises
AttributeError.  Used to model the f-string in the raise statements at
lines 110, 191, 312 which reads self.output_formats. -/
def MobilizeAmerica.getattr (c : MobilizeAmerica) (name : String) : Except PyError JValue :=
  if name == "uri" then Except.ok (JValue.str c.uri)
  else if name == "api_key" then
    Except.ok (match c.api_key with
      | some s => JValue.str s
      | none => JValue.null)
  else Except.error (PyError.attributeError
    ("MobilizeAmerica object has no attribute " ++ name))

/-- The pagination loop of MobilizeAmerica._request (lines 56-63): while
r.json()['next'] is truthy, fetch the next page and extend the accumulator
with its 'data' list.  The first argument is the list of responses the
server will give to the successive requests; the Nat argument counts the
requests issued so far and is returned with the result.  Running out of
modelled responses while a next cursor is still truthy is reported as a
connection failure. -/
def paginateLoop : List Envelope → List JValue → Envelope → Nat → Nat × Except PyError (List JValue)
  | rest, acc, cur, n =>
    match cur.next with
    | none => (n, Except.error (PyError.keyError "next"))
    | some nxt =>
      if truthy nxt then
        match rest with
        | [] => (n + 1, Except.error PyError.connectionError)
        | r :: rs =>
          match r.data with
          | none => (n + 1, Except.error (PyError.keyError "data"))
          | some d => paginateLoop rs (acc ++ d) r (n + 1)
      else (n, Except.ok acc)

/-- MobilizeAmerica._request (lines 36-65).  The auth guard (lines 37-42)
raises TypeError before the first request when auth is set and no api key
is configured; the 'error' membership test (lines 50-51) is performed on
the first response only; then the data of the first page seeds the
accumulator and the pagination loop runs.  The returned Nat is the number
of HTTP requests issued.  Query parameters and the
suppress_args_on_paginate flag do not affect which modelled response is
received, so they are not carried. -/
def MobilizeAmerica._request (c : MobilizeAmerica) (auth : Bool)
    (responses : List Envelope) : Nat × Except PyError (List JValue) :=
  if auth && !(truthyStr c.api_key) then
    (0, Except.error (PyError.typeError "This method requires an api key."))
  else
    match responses with
    | [] => (1, Except.error PyError.connectionError)
    | r :: rs =>
      match r.error with
      | some e => (1, Except.error (PyError.valueError ("API Error:" ++ pyStr e)))
      | none =>
        match r.data with
        | none => (1, Except.error (PyError.keyError "data"))
        | some d => paginateLoop rs d r 1

/-- A page that carries data and a next cursor and no error key. -/
def isFullPage (e : Envelope) : Bool :=
  e.error.isNone && e.data.isSome && e.next.isSome

/-- Truthiness of the next cursor of a page (false when the key is absent). -/
def truthyNext (e : Envelope) : Bool :=
  match e.next with
  | some v => truthy v
  | none => false

/-- The page sequences described by claim C1: nonempty, every page has
data and next and no error, every page except the last has a truthy next
cursor and the last page's cursor is falsy (empty or null). -/
def chainOk : List Envelope → Bool
  | [] => false
  | [e] => isFullPage e && !truthyNext e
  | e :: es => isFullPage e && truthyNext e && chainOk es

/-- The concatenation of the data lists of a page sequence, in page order. -/
def pagesData (ps : List Envelope) : List JValue :=
  (ps.map (fun e => e.data.getD [])).flatten

/-- re.sub of the pattern matching <=, <, >= or > by the empty string
(line 77): every occurrence of one of the four operators is removed,
scanning left to right with the two-character alternatives tried first. -/
def stripOps : List Char → List Char
  | [] => []
  | '<' :: '=' :: rest => stripOps rest
  | '<' :: rest => stripOps rest
  | '>' :: '=' :: rest => stripOps rest
  | '>' :: rest => stripOps rest
  | c :: rest => c :: stripOps rest

/-- re.search of the same pattern (line 79): the first match in the
string, none when there is no match (in which case .group() on the None
result raises AttributeError). -/
def findOp : List Char → Option String
  | [] => none
  | '<' :: '=' :: _ => some "<="
  | '<' :: _ => some "<"
  | '>' :: '=' :: _ => some ">="
  | '>' :: _ => some ">"
  | _ :: rest => findOp rest

/-- An ASCII decimal digit. -/
def isDigitC (c : Char) : Bool := '0' ≤ c && c ≤ '9'

/-- A string of the ISO date shape YYYY-MM-DD. -/
def isIsoDate (s : String) : Bool :=
  match s.data with
  | [a, b, c, d, '-', e, f, '-', g, h] => [a, b, c, d, e, f, g, h].all isDigitC
  | _ => false

/-- The digits of an ISO date read as a number, standing in for the
epoch timestamp of the date. -/
def isoValue (s : String) : Int :=
  Int.ofNat ((s.data.filter isDigitC).foldl (fun n c => n * 10 + (c.toNat - 48)) 0)

/-- Modelled from the spec: date_to_timestamp from
parsons_utilities/datetime.py, which is not under src/.  Per the spec,
date filters and updated_since carry ISO dates converted to timestamps,
null query values are passed through, and an unparseable string is a
fatal error propagated to the caller. -/
def date_to_timestamp : Option String → Except PyError (Option Int)
  | none => Except.ok none
  | some d =>
    if isIsoDate d then Except.ok (some (isoValue d))
    else Except.error (PyError.valueError ("Unknown string format: " ++ d))

/-- The operator translation table of _time_parse (lines 70-73), named
trans in the source. -/
def transTable : List (String × String) :=
  [(">=", "gte_"), (">", "gt_"), ("<=", "lte_"), ("<", "lt_")]

/-- Python str() of the value date_to_timestamp returned (an int or None). -/
def timeRepr : Option Int → String
  | some n => toString n
  | none => "None"

/-- MobilizeAmerica._time_parse (lines 67-87): strip the operators from
the argument, convert the remainder to a timestamp, search the original
argument for the first operator and translate it via trans.  A falsy
argument (None or the empty string) is returned unchanged.  When the
search finds no operator, .group() is called on None and AttributeError
is raised, so the ValueError at line 85 is unreachable. -/
def MobilizeAmerica._time_parse : Option String → Except PyError (Option String)
  | none => Except.ok none
  | some s =>
    if s == "" then Except.ok (some s)
    else
      match date_to_timestamp (some (String.mk (stripOps s.data))) with
      | Except.error e => Except.error e
      | Except.ok t =>
        match findOp s.data with
        | none => Except.error (PyError.attributeError "NoneType object has no attribute group")
        | some op =>
          match (transTable.find? (fun p => p.1 == op)).map (fun p => p.2) with
          | some pre => Except.ok (some (pre ++ timeRepr t))
          | none => Except.error (PyError.valueError "Invalid time operator. Must be one of >=, >, <= or >.")

/-- The valid_output_formats list (lines 107, 188, 309). -/
def valid_output_formats : List String := ["Parsons", "JSON"]

/-- Raising ValueError(f'Invalid output_format (must be one of:
{self.output_formats}') as at lines 110, 191 and 312: evaluating the
f-string reads self.output_formats, an attribute that does not exist, so
the AttributeError escapes before the ValueError can be constructed. -/
def invalidFormatRaise (c : MobilizeAmerica) : PyError :=
  match c.getattr "output_formats" with
  | Except.error e => e
  | Except.ok v => PyError.valueError ("Invalid output_format (must be one of: " ++ pyStr v)

/-- A row of a table: an ordered association of column names to values. -/
abbrev Row : Type := List (String × JValue)

/-- The value a row holds in a column, none when the column is absent. -/
def rowLookup : Row → String → Option JValue
  | [], _ => none
  | p :: rest, k => if p.1 = k then some p.2 else rowLookup rest k

/-- The row with every entry of a column removed. -/
def rowRemove : Row → String → Row
  | [], _ => []
  | p :: rest, k => if p.1 = k then rowRemove rest k else p :: rowRemove rest k

/-- Writing a column of a row: any previous entry is overwritten (the
content of the row afterwards has exactly the new value in the column;
column order is not treated as significant by the model). -/
def rowSet (r : Row) (k : String) (v : JValue) : Row :=
  rowRemove r k ++ [(k, v)]

/-- The column names of a row. -/
def rowKeys (r : Row) : List String := r.map (fun p => p.1)

/-- The fields of a JSON object, empty for any other value. -/
def jFields : JValue → List (String × JValue)
  | JValue.obj fs => fs
  | _ => []

/-- Modelled from the spec: Table of parsons_utilities.table, which is
not under src/.  Per the spec the flattener works on a tabular structure
of rows derived from the fetched records; the model keeps the list of
rows. -/
structure Table where
  rows : List Row

/-- Modelled from the spec: the table built by Table(json_response) from
the accumulated records; each record, a JSON object, becomes one row. -/
def Table.fromRecords (records : List JValue) : Table :=
  ⟨records.map jFields⟩

/-- Table.num_rows. -/
def Table.num_rows (t : Table) : Nat := t.rows.length

/-- Modelled from the spec: the column header of the table, read off the
first row (records of one fetch share one schema). -/
def Table.columns (t : Table) : List String :=
  match t.rows with
  | [] => []
  | r :: _ => rowKeys r

/-- Modelled from the spec (section 4.2): lifting a nested object field
into its parent row.  The child keys become top-level columns, prefixed
by the parent field name when prepend is set; the parent column itself is
removed (spec section 8: no location column remains); a later invocation
on a field that is no longer a dictionary column is a harmless no-op,
overwriting nothing. -/
def unpackDictRow (col : String) (prepend : Bool) (row : Row) : Row :=
  match rowLookup row col with
  | some (JValue.obj fields) =>
    fields.foldl
      (fun r p => rowSet r (if prepend then col ++ "_" ++ p.1 else p.1) p.2)
      (rowRemove row col)
  | _ => row

/-- Table.unpack_dict(column, prepend): the row transform applied to
every row. -/
def Table.unpack_dict (t : Table) (col : String) (prepend : Bool) : Table :=
  ⟨t.rows.map (unpackDictRow col prepend)⟩

/-- Modelled from the spec (section 4.2, inline mode): the designated
list field of a row is replaced by positional columns field_0, field_1,
... bounded by max_columns; elements beyond the bound are discarded and
their columns never created. -/
def unpackListRow (col : String) (maxCols : Option Nat) (row : Row) : Row :=
  match rowLookup row col with
  | some (JValue.list elems) =>
    let taken := match maxCols with
      | some m => elems.take m
      | none => elems
    (taken.enum).foldl
      (fun r p => rowSet r (col ++ "_" ++ toString p.1) p.2)
      (rowRemove row col)
  | _ => row

/-- Table.unpack_list(column, replace=True, max_columns): the row
transform applied to every row. -/
def Table.unpack_list (t : Table) (col : String) (maxCols : Option Nat) : Table :=
  ⟨t.rows.map (unpackListRow col maxCols)⟩

/-- Modelled from the spec (section 4.2, explode mode): the child rows
one parent row contributes to the long table; each element of the list
column becomes one row carrying the parent's key under the foreign-key
column name followed by the element's own fields. -/
def childRowsOf (fkName keyCol listCol : String) (row : Row) : List Row :=
  match rowLookup row listCol with
  | some (JValue.list elems) =>
    elems.map (fun e => (fkName, (rowLookup row keyCol).getD JValue.null) :: jFields e)
  | _ => []

/-- Table.long_table(['id'], column, {'id': fk}): the pair of the parent
table with the list column removed and the child table of exploded list
elements. -/
def Table.long_table (t : Table) (keyCol listCol fkName : String) : Table × Table :=
  (⟨t.rows.map (fun r => rowRemove r listCol)⟩,
   ⟨(t.rows.map (childRowsOf fkName keyCol listCol)).flatten⟩)

/-- petl.convert(tbl, 'address_lines', lambda v: ' '.join(v)) at lines
209/338: the address_lines column, a list of strings, is replaced by the
space-joined string (empty list yields the empty string). -/
def joinAddressRow (row : Row) : Row :=
  match rowLookup row "address_lines" with
  | some (JValue.list xs) =>
    rowSet row "address_lines" (JValue.str (String.intercalate " " (xs.map pyStr)))
  | _ => row

/-- The address_lines conversion applied to every row. -/
def Table.convertAddressLines (t : Table) : Table :=
  ⟨t.rows.map joinAddressRow⟩

/-- ASCII lower-casing of one character, for the IGNORECASE regex at
line 220/349. -/
def lowerC (c : Char) : Char :=
  if 'A' ≤ c && c ≤ 'Z' then Char.ofNat (c.toNat + 32) else c

/-- Whether a character list begins with the letters of timeslots. -/
def startsTS : List Char → Bool
  | 't' :: 'i' :: 'm' :: 'e' :: 's' :: 'l' :: 'o' :: 't' :: 's' :: _ => true
  | _ => false

/-- Whether timeslots occurs anywhere in a character list. -/
def hasTSAux : List Char → Bool
  | [] => false
  | c :: rest => startsTS (c :: rest) || hasTSAux rest

/-- re.search('timeslots', c, re.IGNORECASE) is not None (line 220/349):
the column name contains timeslots, case-insensitively. -/
def hasTimeslotsSub (s : String) : Bool :=
  hasTSAux (s.data.map lowerC)

/-- The inline-mode tail of get_events_auth (lines 345-350): unpack the
timeslots list into bounded positional columns, then take a snapshot of
the column names and lift into flat columns every snapshot column whose
name contains timeslots. -/
def inlineUnpack (t : Table) (maxT : Option Nat) : Table :=
  let t1 := Table.unpack_list t "timeslots" maxT
  ((Table.columns t1).filter (fun c => hasTimeslotsSub c)).foldl
    (fun tb c => Table.unpack_dict tb c true) t1

/-- The keyword parameters of get_events_auth, in source order
(lines 246-248). -/
structure EventsParams where
  organization_id : Option JValue
  updated_since : Option String
  timeslot_start : Option String
  timeslot_end : Option String
  timeslots_table : Bool
  unpack_timeslots : Bool
  max_timeslots : Option Nat
  zipcode : Option String
  max_dist : Option String
  visibility : Option String
  exclude_full : Bool
  is_virtual : Option Bool
  event_types : Option String
  output_format : String

/-- The defaults of those parameters in the source signature. -/
def defaultEventsParams : EventsParams :=
  ⟨none, none, none, none, false, true, none, none, none, none, false, none, none, "Parsons"⟩

/-- Lines 314-315: a scalar organization_id is wrapped into a
one-element list; None and lists pass through. -/
def orgCoerce : Option JValue → JValue
  | none => JValue.null
  | some (JValue.str s) => JValue.list [JValue.str s]
  | some (JValue.int n) => JValue.list [JValue.int n]
  | some v => v

/-- An optional string as a JSON query value. -/
def optS : Option String → JValue
  | none => JValue.null
  | some s => JValue.str s

/-- An optional int as a JSON query value. -/
def optI : Option Int → JValue
  | none => JValue.null
  | some n => JValue.int n

/-- An optional bool as a JSON query value. -/
def optB : Option Bool → JValue
  | none => JValue.null
  | some b => JValue.bool b

/-- The args dictionary built by the first get_events_auth definition
(lines 196-200): five keys. -/
def eventsArgsV1 (p : EventsParams) : Except PyError (List (String × JValue)) :=
  match date_to_timestamp p.updated_since with
  | Except.error e => Except.error e
  | Except.ok us =>
    match MobilizeAmerica._time_parse p.timeslot_start with
    | Except.error e => Except.error e
    | Except.ok ts =>
      match MobilizeAmerica._time_parse p.timeslot_end with
      | Except.error e => Except.error e
      | Except.ok te =>
        Except.ok [("organization_id", orgCoerce p.organization_id),
                   ("updated_since", optI us),
                   ("timeslot_start", optS ts),
                   ("timeslot_end", optS te),
                   ("zipcode", optS p.zipcode)]

/-- The args dictionary built by the second get_events_auth definition
(lines 317-327): the five keys of the first definition plus max_dist,
visibility, exclude_full, is_virtual and event_types. -/
def eventsArgsV2 (p : EventsParams) : Except PyError (List (String × JValue)) :=
  match date_to_timestamp p.updated_since with
  | Except.error e => Except.error e
  | Except.ok us =>
    match MobilizeAmerica._time_parse p.timeslot_start with
    | Except.error e => Except.error e
    | Except.ok ts =>
      match MobilizeAmerica._time_parse p.timeslot_end with
      | Except.error e => Except.error e
      | Except.ok te =>
        Except.ok [("organization_id", orgCoerce p.organization_id),
                   ("updated_since", optI us),
                   ("timeslot_start", optS ts),
                   ("timeslot_end", optS te),
                   ("zipcode", optS p.zipcode),
                   ("max_dist", optS p.max_dist),
                   ("visibility", optS p.visibility),
                   ("exclude_full", JValue.bool p.exclude_full),
                   ("is_virtual", optB p.is_virtual),
                   ("event_types", optS p.event_types)]

/-- What get_organizations returns. -/
inductive OrgResult where
  | parsons (t : Table)
  | json (records : List JValue)
  | pyNone

/-- MobilizeAmerica.get_organizations (lines 95-123): validate the
output format (the raise reads the nonexistent self.output_formats),
convert updated_since, fetch the organizations without auth and shape
the output. -/
def MobilizeAmerica.get_organizations (c : MobilizeAmerica) (responses : List Envelope)
    (updated_since : Option String) (output_format : String) : Nat × Except PyError OrgResult :=
  if !(valid_output_formats.contains output_format) then
    (0, Except.error (invalidFormatRaise c))
  else
    match date_to_timestamp updated_since with
    | Except.error e => (0, Except.error e)
    | Except.ok _ =>
      match MobilizeAmerica._request c false responses with
      | (n, Except.error e) => (n, Except.error e)
      | (n, Except.ok records) =>
        if output_format == "Parsons" then
          (n, Except.ok (OrgResult.parsons (Table.fromRecords records)))
        else if output_format == "JSON" then (n, Except.ok (OrgResult.json records))
        else (n, Except.ok OrgResult.pyNone)

/-- What get_events_auth returns: a Parsons table, the explode-mode pair
of tables, the JSON output of the Airbyte path, or Python's implicit
None. -/
inductive EventsResult where
  | parsons (t : Table)
  | tablePair (events timeslots : Table)
  | jsonOut (rows : List Row)
  | pyNone

/-- The JSON output path (lines 356-373): the table is written to CSV
and reloaded, which turns every value into its string rendering. -/
def csvRoundTrip (t : Table) : List Row :=
  t.rows.map (fun r => r.map (fun p => (p.1, JValue.str (pyStr p.2))))

/-- The output_format dispatch at the end of both get_events_auth bodies
(lines 223-244 and 352-373). -/
def eventsOutput (p : EventsParams) (n : Nat) (tbl : Table) : Nat × Except PyError EventsResult :=
  if p.output_format == "Parsons" then (n, Except.ok (EventsResult.parsons tbl))
  else if p.output_format == "JSON" then
    (n, Except.ok (EventsResult.jsonOut (csvRoundTrip tbl)))
  else (n, Except.ok EventsResult.pyNone)

/-- The shared post-fetch pipeline of both get_events_auth bodies
(lines 204-244 and 331-373): when the table has rows, unpack sponsor,
unpack location twice (the intentional duplicate), join address_lines,
then either explode timeslots into a long table and return the pair
immediately, or inline-unpack the timeslots; finally shape the output. -/
def eventsPostProcess (p : EventsParams) (n : Nat) (records : List JValue) :
    Nat × Except PyError EventsResult :=
  let tbl := Table.fromRecords records
  if tbl.num_rows > 0 then
    let tbl1 := ((tbl.unpack_dict "sponsor" true).unpack_dict "location" false).unpack_dict
      "location" false
    let tbl2 := tbl1.convertAddressLines
    if p.timeslots_table then
      let pair := tbl2.long_table "id" "timeslots" "event_id"
      (n, Except.ok (EventsResult.tablePair pair.1 pair.2))
    else if p.unpack_timeslots then eventsOutput p n (inlineUnpack tbl2 p.max_timeslots)
    else eventsOutput p n tbl2
  else eventsOutput p n tbl

/-- The first definition of get_events_auth (lines 125-244): validates
the output format, builds the five-key args dictionary and fetches
without auth, then runs the shared pipeline. -/
def get_events_auth_v1 (c : MobilizeAmerica) (responses : List Envelope) (p : EventsParams) :
    Nat × Except PyError EventsResult :=
  if !(valid_output_formats.contains p.output_format) then
    (0, Except.error (invalidFormatRaise c))
  else
    match eventsArgsV1 p with
    | Except.error e => (0, Except.error e)
    | Except.ok _ =>
      match MobilizeAmerica._request c false responses with
      | (n, Except.error e) => (n, Except.error e)
      | (n, Except.ok records) => eventsPostProcess p n records

/-- The second definition of get_events_auth (lines 246-373): validates
the output format, builds the ten-key args dictionary and fetches with
auth=True, then runs the shared pipeline. -/
def get_events_auth_v2 (c : MobilizeAmerica) (responses : List Envelope) (p : EventsParams) :
    Nat × Except PyError EventsResult :=
  if !(valid_output_formats.contains p.output_format) then
    (0, Except.error (invalidFormatRaise c))
  else
    match eventsArgsV2 p with
    | Except.error e => (0, Except.error e)
    | Except.ok _ =>
      match MobilizeAmerica._request c true responses with
      | (n, Except.error e) => (n, Except.error e)
      | (n, Except.ok records) => eventsPostProcess p n records

/-- A tag for the two method definitions that share the name
get_events_auth. -/
inductive EventsImpl where
  | v1
  | v2
deriving DecidableEq, Repr

/-- The class body binds the name get_events_auth twice, in source order:
first the definition at line 125, then the definition at line 246.
Executing the class body is a sequence of assignments into the class
namespace dictionary. -/
def eventsDefs : List (String × EventsImpl) :=
  [("get_events_auth", EventsImpl.v1), ("get_events_auth", EventsImpl.v2)]

/-- Python dictionary-assignment semantics for a sequence of bindings:
the last assignment to a name wins. -/
def lookupLast (body : List (String × EventsImpl)) (n : String) : Option EventsImpl :=
  body.foldl (fun acc p => if p.1 == n then some p.2 else acc) none

/-- Running whichever definition a tag names. -/
def runEvents : EventsImpl → MobilizeAmerica → List Envelope → EventsParams →
    Nat × Except PyError EventsResult
  | EventsImpl.v1 => get_events_auth_v1
  | EventsImpl.v2 => get_events_auth_v2

/-- Calling client.get_events_auth(...): attribute lookup in the class
namespace resolves the name to the surviving binding and runs it. -/
def MobilizeAmerica.get_events_auth (c : MobilizeAmerica) (responses : List Envelope)
    (p : EventsParams) : Nat × Except PyError EventsResult :=
  match lookupLast eventsDefs "get_events_auth" with
  | some impl => runEvents impl c responses p
  | none => (0, Except.error (PyError.attributeError "get_events_auth"))

theorem fullPage_error (e : Envelope) (h : isFullPage e = true) : e.error = none := by
  cases he : e.error with
  | none => rfl
  | some v => simp [isFullPage, he] at h

theorem fullPage_data (e : Envelope) (h : isFullPage e = true) : ∃ d, e.data = some d := by
  cases hd : e.data with
  | some d => exact ⟨d, rfl⟩
  | none => simp [isFullPage, hd] at h

theorem fullPage_next (e : Envelope) (h : isFullPage e = true) : ∃ v, e.next = some v := by
  cases hn : e.next with
  | some v => exact ⟨v, rfl⟩
  | none => simp [isFullPage, hn] at h

theorem chainOk_single (e : Envelope) (h : chainOk [e] = true) :
    isFullPage e = true ∧ truthyNext e = false := by
  simp [chainOk, Bool.and_eq_true] at h
  exact h

theorem chainOk_cons (e f : Envelope) (fs : List Envelope) (h : chainOk (e :: f :: fs) = true) :
    isFullPage e = true ∧ truthyNext e = true ∧ chainOk (f :: fs) = true := by
  simp [chainOk, Bool.and_eq_true] at h
  exact ⟨h.1.1, h.1.2, h.2⟩

theorem isFullPage_of_chainOk (e : Envelope) (es : List Envelope)
    (h : chainOk (e :: es) = true) : isFullPage e = true := by
  cases es with
  | nil => exact (chainOk_single e h).1
  | cons f fs => exact (chainOk_cons e f fs h).1

theorem pagesData_cons (e : Envelope) (es : List Envelope) :
    pagesData (e :: es) = e.data.getD [] ++ pagesData es := by
  simp [pagesData]

theorem paginateLoop_chain (rest : List Envelope) : ∀ (cur : Envelope) (acc : List JValue) (n : Nat),
    chainOk (cur :: rest) = true →
    paginateLoop rest acc cur n = (n + rest.length, Except.ok (acc ++ pagesData rest)) := by
  induction rest with
  | nil =>
    intro cur acc n h
    obtain ⟨hfull, hfalsy⟩ := chainOk_single cur h
    obtain ⟨nxt, hn⟩ := fullPage_next cur hfull
    have htr : truthy nxt = false := by
      simpa [truthyNext, hn] using hfalsy
    simp [paginateLoop, hn, htr, pagesData]
  | cons r rs ih =>
    intro cur acc n h
    obtain ⟨hfull, htru, hch⟩ := chainOk_cons cur r rs h
    obtain ⟨nxt, hn⟩ := fullPage_next cur hfull
    have htr : truthy nxt = true := by
      simpa [truthyNext, hn] using htru
    obtain ⟨d, hd⟩ := fullPage_data r (isFullPage_of_chainOk r rs hch)
    rw [paginateLoop]
    simp only [hn, htr, if_true, hd]
    rw [ih r (acc ++ d) (n + 1) hch, pagesData_cons, hd]
    simp [List.append_assoc]
    omega

/-- C1: for every sequence of N page envelopes in which every page before
the last has a truthy next cursor, only the last page's next is empty or
null, and no envelope carries an error key, the paginated fetch _request
issues exactly N requests and returns the concatenation of the pages'
data lists, in page order and preserving in-page order. -/
theorem c1_pagination (c : MobilizeAmerica) (auth : Bool) (pages : List Envelope)
    (hauth : auth = true → truthyStr c.api_key = true)
    (hchain : chainOk pages = true) :
    MobilizeAmerica._request c auth pages = (pages.length, Except.ok (pagesData pages)) := by
  have hguard : (auth && !(truthyStr c.api_key)) = false := by
    cases auth with
    | false => rfl
    | true => simp [hauth rfl]
  cases pages with
  | nil => simp [chainOk] at hchain
  | cons e es =>
    have hfull := isFullPage_of_chainOk e es hchain
    have herr : e.error = none := fullPage_error e hfull
    obtain ⟨d, hd⟩ := fullPage_data e hfull
    rw [MobilizeAmerica._request]
    simp only [hguard, Bool.false_eq_true, if_false, herr, hd]
    rw [paginateLoop_chain es e d 1 hchain, pagesData_cons, hd]
    simp [Nat.add_comm]

/-- The two-page chain used as the C1 witness input. -/
def c1pages : List Envelope :=
  [⟨some [JValue.int 1, JValue.int 2], some (JValue.str "page2"), none⟩,
   ⟨some [JValue.int 3], some JValue.null, none⟩]

/-- C1 witness: a concrete two-page fetch returning the concatenation of
both data lists. -/
theorem c1_pagination_witness :
    chainOk c1pages = true
    ∧ MobilizeAmerica._request ⟨MA_URI, some "key"⟩ true c1pages
        = (2, Except.ok [JValue.int 1, JValue.int 2, JValue.int 3]) :=
  ⟨rfl, c1_pagination ⟨MA_URI, some "key"⟩ true c1pages (fun _ => rfl) rfl⟩

/-- The two-page fetch refuting C2: the second page carries a non-empty
error key but its data is accumulated and returned. -/
def c2pages : List Envelope :=
  [⟨some [JValue.int 1], some (JValue.str "page2"), none⟩,
   ⟨some [JValue.int 2], some (JValue.str ""), some (JValue.str "boom")⟩]

/-- C2 counterexample: a paginated fetch in which the second page's
envelope contains the non-empty error key boom does not raise at all; it
returns the records of both pages. -/
theorem c2_counterexample :
    (c2pages.any (fun e => match e.error with
      | some v => truthy v
      | none => false)) = true
    ∧ MobilizeAmerica._request ⟨MA_URI, some "key"⟩ false c2pages
        = (2, Except.ok [JValue.int 1, JValue.int 2]) :=
  ⟨rfl, rfl⟩

/-- C2 amended: only the first page's envelope is inspected for an error
key; when the first response contains one, the fetch raises the ApiError
(ValueError) carrying the server-supplied message after exactly one
request, returning no records.  Error keys on subsequent pages go
undetected (see the counterexample). -/
theorem c2_first_page_error (c : MobilizeAmerica) (auth : Bool)
    (hauth : auth = true → truthyStr c.api_key = true)
    (e : Envelope) (es : List Envelope) (m : JValue) (he : e.error = some m) :
    MobilizeAmerica._request c auth (e :: es)
      = (1, Except.error (PyError.valueError ("API Error:" ++ pyStr m))) := by
  have hguard : (auth && !(truthyStr c.api_key)) = false := by
    cases auth with
    | false => rfl
    | true => simp [hauth rfl]
  rw [MobilizeAmerica._request]
  simp only [hguard, Bool.false_eq_true, if_false, he]

/-- C2 amended witness: a concrete first-page error aborts the fetch with
the server message after one request. -/
theorem c2_first_page_error_witness :
    MobilizeAmerica._request ⟨MA_URI, some "key"⟩ true
        [⟨some [JValue.int 7], some (JValue.str "page2"), some (JValue.str "bad")⟩]
      = (1, Except.error (PyError.valueError "API Error:bad")) :=
  c2_first_page_error ⟨MA_URI, some "key"⟩ true (fun _ => rfl)
    ⟨some [JValue.int 7], some (JValue.str "page2"), some (JValue.str "bad")⟩ [] (JValue.str "bad") rfl

/-- C5: a fetch with auth set on a client configured with no api key
(none passed to the constructor and none in the environment, or only
falsy empty strings) raises the TypeError that plays the role of the
ConfigurationError, and issues zero requests. -/
theorem c5_auth_without_key (passed envv : Option String) (responses : List Envelope)
    (hp : truthyStr passed = false) (he : truthyStr envv = false) :
    MobilizeAmerica._request (MobilizeAmerica.init passed envv) true responses
      = (0, Except.error (PyError.typeError "This method requires an api key.")) := by
  simp [MobilizeAmerica.init, MobilizeAmerica._request, hp, he]

/-- C5 witness: the fully unconfigured client fails before any request. -/
theorem c5_auth_without_key_witness :
    MobilizeAmerica._request (MobilizeAmerica.init none none) true
        [⟨some [JValue.int 1], some JValue.null, none⟩]
      = (0, Except.error (PyError.typeError "This method requires an api key.")) :=
  c5_auth_without_key none none [⟨some [JValue.int 1], some JValue.null, none⟩] rfl rfl

/-- The get_events_auth parameters with the unrecognized output format
XML and every other argument at its default. -/
def c3params : EventsParams :=
  ⟨none, none, none, none, false, true, none, none, none, none, false, none, none, "XML"⟩

/-- C3: calling get_organizations or get_events_auth with an output
format outside Parsons/JSON does fail before any request is issued (zero
requests), but with AttributeError, not the intended ValueError: the
raise statement's f-string reads self.output_formats, an attribute that
does not exist, so the AttributeError escapes before the ValueError is
built (the local is named valid_output_formats). -/
theorem c3_invalid_format_attribute_error :
    MobilizeAmerica.get_organizations ⟨MA_URI, some "key"⟩ [] none "XML"
      = (0, Except.error (PyError.attributeError
          "MobilizeAmerica object has no attribute output_formats"))
    ∧ MobilizeAmerica.get_events_auth ⟨MA_URI, some "key"⟩ [] c3params
      = (0, Except.error (PyError.attributeError
          "MobilizeAmerica object has no attribute output_formats")) :=
  ⟨rfl, rfl⟩

/-- The get_events_auth parameters whose timeslot_start filter carries a
parseable date but no comparison operator. -/
def c4params : EventsParams :=
  ⟨none, none, some "2020-01-01", none, false, true, none, none, none, none, false, none, none,
   "Parsons"⟩

/-- C4: a timeslot filter that does not begin with one of the four
comparison operators does fail before any request (zero requests), but
never through the ValueError at line 85: for an operator-free filter the
re.search returns None and .group() raises AttributeError first, so the
Invalid time operator ValueError is unreachable. -/
theorem c4_missing_operator_attribute_error :
    MobilizeAmerica._time_parse (some "2020-01-01")
      = Except.error (PyError.attributeError "NoneType object has no attribute group")
    ∧ MobilizeAmerica.get_events_auth ⟨MA_URI, some "key"⟩ [] c4params
      = (0, Except.error (PyError.attributeError "NoneType object has no attribute group")) :=
  ⟨rfl, rfl⟩

/-- The args dictionary the second definition builds when every
parameter is at its default. -/
def c6argsDefault : List (String × JValue) :=
  [("organization_id", JValue.null), ("updated_since", JValue.null),
   ("timeslot_start", JValue.null), ("timeslot_end", JValue.null),
   ("zipcode", JValue.null), ("max_dist", JValue.null), ("visibility", JValue.null),
   ("exclude_full", JValue.bool false), ("is_virtual", JValue.null),
   ("event_types", JValue.null)]

/-- C6: the later definition of get_events_auth silently shadows the
earlier one.  Name resolution in the class namespace yields the second
definition; every call to get_events_auth runs the second body, which
requires the bearer credential on every fetch and sends the full
parameter set (max_dist, visibility, exclude_full, is_virtual,
event_types included), while the first body's args stop at zipcode and
it is never dispatched. -/
theorem c6_shadowing :
    lookupLast eventsDefs "get_events_auth" = some EventsImpl.v2
    ∧ (∀ (c : MobilizeAmerica) (responses : List Envelope) (p : EventsParams),
        MobilizeAmerica.get_events_auth c responses p = get_events_auth_v2 c responses p)
    ∧ (∀ (p : EventsParams) (args : List (String × JValue)), eventsArgsV2 p = Except.ok args →
        args.map Prod.fst = ["organization_id", "updated_since", "timeslot_start",
          "timeslot_end", "zipcode", "max_dist", "visibility", "exclude_full",
          "is_virtual", "event_types"])
    ∧ (∀ (p : EventsParams) (args : List (String × JValue)), eventsArgsV1 p = Except.ok args →
        args.map Prod.fst = ["organization_id", "updated_since", "timeslot_start",
          "timeslot_end", "zipcode"])
    ∧ (∀ responses : List Envelope,
        MobilizeAmerica.get_events_auth ⟨MA_URI, none⟩ responses defaultEventsParams
          = (0, Except.error (PyError.typeError "This method requires an api key."))) := by
  refine ⟨rfl, fun c responses p => rfl, ?_, ?_, fun responses => rfl⟩
  · intro p args h
    cases h1 : date_to_timestamp p.updated_since with
    | error e => simp [eventsArgsV2, h1] at h
    | ok us =>
      cases h2 : MobilizeAmerica._time_parse p.timeslot_start with
      | error e => simp [eventsArgsV2, h1, h2] at h
      | ok ts =>
        cases h3 : MobilizeAmerica._time_parse p.timeslot_end with
        | error e => simp [eventsArgsV2, h1, h2, h3] at h
        | ok te =>
          simp [eventsArgsV2, h1, h2, h3] at h
          rw [← h]
          rfl
  · intro p args h
    cases h1 : date_to_timestamp p.updated_since with
    | error e => simp [eventsArgsV1, h1] at h
    | ok us =>
      cases h2 : MobilizeAmerica._time_parse p.timeslot_start with
      | error e => simp [eventsArgsV1, h1, h2] at h
      | ok ts =>
        cases h3 : MobilizeAmerica._time_parse p.timeslot_end with
        | error e => simp [eventsArgsV1, h1, h2, h3] at h
        | ok te =>
          simp [eventsArgsV1, h1, h2, h3] at h
          rw [← h]
          rfl

/-- C6 witness: the dispatched call equals the second body on a concrete
input, the default args of the second body carry the ten keys, and the
dispatched call on a keyless client demands the api key. -/
theorem c6_shadowing_witness :
    MobilizeAmerica.get_events_auth ⟨MA_URI, some "key"⟩ [] defaultEventsParams
        = get_events_auth_v2 ⟨MA_URI, some "key"⟩ [] defaultEventsParams
    ∧ c6argsDefault.map Prod.fst = ["organization_id", "updated_since", "timeslot_start",
        "timeslot_end", "zipcode", "max_dist", "visibility", "exclude_full",
        "is_virtual", "event_types"]
    ∧ MobilizeAmerica.get_events_auth ⟨MA_URI, none⟩ [] defaultEventsParams
        = (0, Except.error (PyError.typeError "This method requires an api key.")) :=
  ⟨c6_shadowing.2.1 ⟨MA_URI, some "key"⟩ [] defaultEventsParams,
   c6_shadowing.2.2.1 defaultEventsParams c6argsDefault rfl,
   c6_shadowing.2.2.2.2 []⟩

theorem rowLookup_remove_self (r : Row) (k : String) : rowLookup (rowRemove r k) k = none := by
  induction r with
  | nil => rfl
  | cons p rest ih =>
    by_cases h : p.1 = k
    · simp [rowRemove, h, ih]
    · simp [rowRemove, rowLookup, h, ih]

theorem rowLookup_remove_ne (r : Row) (k k' : String) (h : k' ≠ k) :
    rowLookup (rowRemove r k) k' = rowLookup r k' := by
  induction r with
  | nil => rfl
  | cons p rest ih =>
    by_cases hp : p.1 = k
    · simp [rowRemove, rowLookup, hp, Ne.symm h, ih]
    · simp [rowRemove, rowLookup, hp, ih]

theorem rowLookup_append (r1 r2 : Row) (k : String) :
    rowLookup (r1 ++ r2) k = match rowLookup r1 k with
      | some v => some v
      | none => rowLookup r2 k := by
  induction r1 with
  | nil => rfl
  | cons p rest ih =>
    by_cases hp : p.1 = k
    · simp [rowLookup, hp]
    · simp [rowLookup, hp, ih]

theorem rowLookup_set_self (r : Row) (k : String) (v : JValue) :
    rowLookup (rowSet r k v) k = some v := by
  rw [rowSet, rowLookup_append, rowLookup_remove_self]
  simp [rowLookup]

theorem rowLookup_set_ne (r : Row) (k k' : String) (v : JValue) (h : k' ≠ k) :
    rowLookup (rowSet r k v) k' = rowLookup r k' := by
  rw [rowSet, rowLookup_append, rowLookup_remove_ne r k k' h]
  cases hl : rowLookup r k' with
  | some w => rfl
  | none => simp [rowLookup, Ne.symm h]

theorem rowKeys_cons (p : String × JValue) (rest : Row) :
    rowKeys (p :: rest) = p.1 :: rowKeys rest := rfl

theorem rowLookup_not_mem_keys (r : Row) (k : String) (h : k ∉ rowKeys r) :
    rowLookup r k = none := by
  induction r with
  | nil => rfl
  | cons p rest ih =>
    rw [rowKeys_cons] at h
    simp at h
    rw [rowLookup, if_neg (fun hh => h.1 hh.symm)]
    exact ih h.2

theorem mem_keys_remove (r : Row) (k k' : String) (h : k' ∈ rowKeys (rowRemove r k)) :
    k' ∈ rowKeys r ∧ k' ≠ k := by
  induction r with
  | nil => simp [rowRemove, rowKeys] at h
  | cons p rest ih =>
    by_cases hp : p.1 = k
    · rw [rowRemove] at h
      simp only [hp, if_true] at h
      obtain ⟨h1, h2⟩ := ih h
      exact ⟨by simp [rowKeys] at h1 ⊢; exact Or.inr h1, h2⟩
    · rw [rowRemove] at h
      simp only [hp, if_false] at h
      rcases (by simpa [rowKeys] using h) with h1 | h1
      · subst h1
        exact ⟨by simp [rowKeys], hp⟩
      · obtain ⟨g1, g2⟩ := ih (by simpa [rowKeys] using h1)
        exact ⟨by simp [rowKeys] at g1 ⊢; exact Or.inr g1, g2⟩

/-- C7: in explode mode, a record with id 42 and two timeslots
contributes exactly the two child rows carrying the parent id under
event_id followed by the timeslot fields, those rows appear in the long
table, and every parent row of the flat table retains no timeslots
column. -/
theorem c7_explode (t : Table) (r : Row) (hr : r ∈ t.rows)
    (hid : rowLookup r "id" = some (JValue.int 42))
    (hts : rowLookup r "timeslots" = some (JValue.list
      [JValue.obj [("start", JValue.int 1)], JValue.obj [("start", JValue.int 2)]])) :
    childRowsOf "event_id" "id" "timeslots" r =
        [[("event_id", JValue.int 42), ("start", JValue.int 1)],
         [("event_id", JValue.int 42), ("start", JValue.int 2)]]
    ∧ [("event_id", JValue.int 42), ("start", JValue.int 1)]
        ∈ (Table.long_table t "id" "timeslots" "event_id").2.rows
    ∧ [("event_id", JValue.int 42), ("start", JValue.int 2)]
        ∈ (Table.long_table t "id" "timeslots" "event_id").2.rows
    ∧ ∀ prow ∈ (Table.long_table t "id" "timeslots" "event_id").1.rows,
        rowLookup prow "timeslots" = none := by
  have hchild : childRowsOf "event_id" "id" "timeslots" r =
      [[("event_id", JValue.int 42), ("start", JValue.int 1)],
       [("event_id", JValue.int 42), ("start", JValue.int 2)]] := by
    simp [childRowsOf, hts, hid, jFields]
  refine ⟨hchild, ?_, ?_, ?_⟩
  · exact List.mem_flatten.mpr ⟨childRowsOf "event_id" "id" "timeslots" r,
      List.mem_map_of_mem _ hr, by rw [hchild]; simp⟩
  · exact List.mem_flatten.mpr ⟨childRowsOf "event_id" "id" "timeslots" r,
      List.mem_map_of_mem _ hr, by rw [hchild]; simp⟩
  · intro prow hp
    simp only [Table.long_table] at hp
    obtain ⟨src, hsrc, hpr⟩ := List.mem_map.mp hp
    rw [← hpr]
    exact rowLookup_remove_self src "timeslots"

/-- The one-record table used as the C7 witness input. -/
def c7table : Table :=
  ⟨[[("id", JValue.int 42), ("timeslots", JValue.list
      [JValue.obj [("start", JValue.int 1)], JValue.obj [("start", JValue.int 2)]])]]⟩

/-- C7 witness: the concrete record with id 42 and two timeslots. -/
theorem c7_explode_witness :
    childRowsOf "event_id" "id" "timeslots" (c7table.rows.headD []) =
        [[("event_id", JValue.int 42), ("start", JValue.int 1)],
         [("event_id", JValue.int 42), ("start", JValue.int 2)]]
    ∧ [("event_id", JValue.int 42), ("start", JValue.int 1)]
        ∈ (Table.long_table c7table "id" "timeslots" "event_id").2.rows
    ∧ ∀ prow ∈ (Table.long_table c7table "id" "timeslots" "event_id").1.rows,
        rowLookup prow "timeslots" = none := by
  have h := c7_explode c7table (c7table.rows.headD []) (by simp [c7table]) rfl rfl
  exact ⟨h.1, h.2.1, h.2.2.2⟩

theorem unpackDictRow_no_col (col : String) (prepend : Bool) (row : Row)
    (h : rowLookup row col = none) : unpackDictRow col prepend row = row := by
  simp [unpackDictRow, h]

/-- C9: lifting the nested location field with unpack_dict twice in
succession with identical arguments is idempotent on every table in
which the first lift consumes the location column without recreating it
(the source field is unchanged, i.e. absent, when the second invocation
runs): the table after the second lift equals the table after the
first. -/
theorem c9_idem (t : Table)
    (h : ∀ row ∈ t.rows, rowLookup (unpackDictRow "location" false row) "location" = none) :
    Table.unpack_dict (Table.unpack_dict t "location" false) "location" false
      = Table.unpack_dict t "location" false := by
  cases t with
  | mk rows =>
    simp only [Table.unpack_dict, Table.mk.injEq, List.map_map]
    apply List.map_congr_left
    intro r hrr
    show unpackDictRow "location" false (unpackDictRow "location" false r)
      = unpackDictRow "location" false r
    exact unpackDictRow_no_col _ _ _ (h r hrr)

/-- The one-record row used as the C9 witness input. -/
def c9row : Row :=
  [("location", JValue.obj [("city", JValue.str "X"), ("zip", JValue.str "Y")]),
   ("id", JValue.int 1)]

/-- C9 witness: on the concrete table the first lift leaves no location
column and the second lift is a no-op. -/
theorem c9_idem_witness :
    rowLookup (unpackDictRow "location" false c9row) "location" = none
    ∧ Table.unpack_dict (Table.unpack_dict ⟨[c9row]⟩ "location" false) "location" false
        = Table.unpack_dict ⟨[c9row]⟩ "location" false :=
  ⟨rfl, c9_idem ⟨[c9row]⟩ (by
    intro row hrow
    rw [List.mem_singleton] at hrow
    subst hrow
    rfl)⟩

/-- C10: when get_events_auth is called with timeslots_table set and
output_format Parsons and the paginated fetch returns zero records, the
zero-row guard skips the whole flattening pipeline, including the
explode branch, and the result is the single empty Parsons table rather
than the events/timeslots pair. -/
theorem c10_zero_rows (c : MobilizeAmerica) (responses : List Envelope) (p : EventsParams)
    (n : Nat) (a : List (String × JValue))
    (hfmt : p.output_format = "Parsons")
    (_htt : p.timeslots_table = true)
    (hargs : eventsArgsV2 p = Except.ok a)
    (hfetch : MobilizeAmerica._request c true responses = (n, Except.ok [])) :
    MobilizeAmerica.get_events_auth c responses p
      = (n, Except.ok (EventsResult.parsons ⟨[]⟩)) := by
  have hdisp : MobilizeAmerica.get_events_auth c responses p
      = get_events_auth_v2 c responses p := rfl
  have hv : valid_output_formats.contains p.output_format = true := by
    rw [hfmt]
    rfl
  rw [hdisp, get_events_auth_v2, hv]
  simp only [Bool.not_true, Bool.false_eq_true, if_false, hargs, hfetch]
  simp [eventsPostProcess, Table.fromRecords, Table.num_rows, eventsOutput, hfmt]

/-- The get_events_auth parameters of the C10 witness: explode mode
requested, Parsons output. -/
def c10params : EventsParams :=
  ⟨none, none, none, none, true, true, none, none, none, none, false, none, none, "Parsons"⟩

/-- C10 witness: one page with an empty data list yields the single
empty table. -/
theorem c10_zero_rows_witness :
    eventsArgsV2 c10params = Except.ok c6argsDefault
    ∧ MobilizeAmerica._request ⟨MA_URI, some "key"⟩ true
        [⟨some [], some (JValue.str ""), none⟩] = (1, Except.ok [])
    ∧ MobilizeAmerica.get_events_auth ⟨MA_URI, some "key"⟩
        [⟨some [], some (JValue.str ""), none⟩] c10params
        = (1, Except.ok (EventsResult.parsons ⟨[]⟩)) :=
  ⟨rfl, rfl, c10_zero_rows ⟨MA_URI, some "key"⟩ [⟨some [], some (JValue.str ""), none⟩]
    c10params 1 c6argsDefault rfl rfl rfl rfl⟩

theorem strData_inj (s t : String) (h : s.data = t.data) : s = t := by
  cases s with
  | mk a =>
    cases t with
    | mk b => exact congrArg String.mk h

theorem strAppendLeftCancel (s t u : String) (h : s ++ t = s ++ u) : t = u := by
  apply strData_inj
  have hd := congrArg String.data h
  rw [String.data_append, String.data_append] at hd
  exact List.append_cancel_left hd

theorem strAppendNe (s t k : String) (i : Nat)
    (h : (s.data ++ k.data).get? i ≠ t.data.get? i) : s ++ k ≠ t := by
  intro he
  apply h
  have hd := congrArg String.data he
  rw [String.data_append] at hd
  rw [hd]

theorem strAppendNe2 (s t k k' : String) (i : Nat)
    (h : (s.data ++ k.data).get? i ≠ (t.data ++ k'.data).get? i) : s ++ k ≠ t ++ k' := by
  intro he
  apply h
  have hd := congrArg String.data he
  rw [String.data_append, String.data_append] at hd
  rw [hd]

theorem ts0u_ne_ts0 (k : String) : ("timeslots_0" ++ "_") ++ k ≠ "timeslots_0" := by
  apply strAppendNe ("timeslots_0" ++ "_") "timeslots_0" k 11
  have e1 : ((("timeslots_0" ++ "_" : String)).data ++ k.data).get? 11 = some '_' := rfl
  have e2 : (("timeslots_0" : String)).data.get? 11 = none := rfl
  rw [e1, e2]
  decide

theorem ts0u_ne_ts (k : String) : ("timeslots_0" ++ "_") ++ k ≠ "timeslots" := by
  apply strAppendNe ("timeslots_0" ++ "_") "timeslots" k 9
  have e1 : ((("timeslots_0" ++ "_" : String)).data ++ k.data).get? 9 = some '_' := rfl
  have e2 : (("timeslots" : String)).data.get? 9 = none := rfl
  rw [e1, e2]
  decide

theorem ts1_ne_ts0 (k : String) : "timeslots_1" ++ k ≠ "timeslots_0" := by
  apply strAppendNe "timeslots_1" "timeslots_0" k 10
  have e1 : (("timeslots_1" : String).data ++ k.data).get? 10 = some '1' := rfl
  have e2 : (("timeslots_0" : String)).data.get? 10 = some '0' := rfl
  rw [e1, e2]
  decide

theorem ts1_ne_ts (k : String) : "timeslots_1" ++ k ≠ "timeslots" := by
  apply strAppendNe "timeslots_1" "timeslots" k 9
  have e1 : (("timeslots_1" : String).data ++ k.data).get? 9 = some '_' := rfl
  have e2 : (("timeslots" : String)).data.get? 9 = none := rfl
  rw [e1, e2]
  decide

theorem ts0u_ne_ts1 (p k : String) : ("timeslots_0" ++ "_") ++ p ≠ "timeslots_1" ++ k := by
  apply strAppendNe2 ("timeslots_0" ++ "_") "timeslots_1" p k 10
  have e1 : ((("timeslots_0" ++ "_" : String)).data ++ p.data).get? 10 = some '0' := rfl
  have e2 : (("timeslots_1" : String).data ++ k.data).get? 10 = some '1' := rfl
  rw [e1, e2]
  decide

theorem hasTS_ts1 (k : String) : hasTimeslotsSub ("timeslots_1" ++ k) = true := by
  rw [hasTimeslotsSub, String.data_append, List.map_append]
  rfl

theorem rowLookup_foldl_set_ne (f : String → String) (fields : List (String × JValue))
    (r : Row) (key : String) (h : ∀ p ∈ fields, f p.1 ≠ key) :
    rowLookup (fields.foldl (fun acc p => rowSet acc (f p.1) p.2) r) key = rowLookup r key := by
  induction fields generalizing r with
  | nil => rfl
  | cons q rest ih =>
    rw [List.foldl_cons, ih _ (fun p hp => h p (List.mem_cons_of_mem q hp))]
    exact rowLookup_set_ne r (f q.1) key q.2 (fun hh => h q (List.mem_cons_self q rest) hh.symm)

theorem rowLookup_foldl_set_mem (f : String → String) (hinj : ∀ a b, f a = f b → a = b) :
    ∀ (fields : List (String × JValue)) (r : Row) (k : String) (v : JValue),
    (fields.map Prod.fst).Nodup → (k, v) ∈ fields →
    rowLookup (fields.foldl (fun acc p => rowSet acc (f p.1) p.2) r) (f k) = some v := by
  intro fields
  induction fields with
  | nil =>
    intro r k v _ hmem
    cases hmem
  | cons q rest ih =>
    intro r k v hnd hmem
    rw [List.foldl_cons]
    rcases List.mem_cons.mp hmem with heq | hmem2
    · have hq : q = (k, v) := heq.symm
      subst hq
      have hnd' : (k :: rest.map Prod.fst).Nodup := by
        rw [List.map_cons] at hnd
        exact hnd
      have hknotin : k ∉ rest.map Prod.fst := (List.nodup_cons.mp hnd').1
      have hne : ∀ p ∈ rest, f p.1 ≠ f k := by
        intro p hp hfp
        exact hknotin (by rw [← hinj _ _ hfp]; exact List.mem_map_of_mem Prod.fst hp)
      rw [rowLookup_foldl_set_ne f rest (rowSet r (f k) v) (f k) hne]
      exact rowLookup_set_self r (f k) v
    · have hnd' : (q.1 :: rest.map Prod.fst).Nodup := by
        rw [List.map_cons] at hnd
        exact hnd
      have hnd2 : (rest.map Prod.fst).Nodup := (List.nodup_cons.mp hnd').2
      exact ih (rowSet r (f q.1) q.2) k v hnd2 hmem2

/-- C8: in inline mode with max_list_items 1, a record whose timeslots
list has two or more elements ends up with exactly the one positional
column group timeslots_0_*: the first timeslot's fields are lifted to
timeslots_0_<key> columns, the intermediate timeslots_0 object column is
itself lifted away, the original timeslots column is gone, and no
timeslots_1 or timeslots_1_* column ever exists.  The row is assumed to
have no other column whose name contains timeslots, and the first
timeslot's field names are distinct. -/
theorem c8_inline (row : Row) (fields : List (String × JValue)) (e1 : JValue) (rest : List JValue)
    (hts : rowLookup row "timeslots" = some (JValue.list (JValue.obj fields :: e1 :: rest)))
    (honly : ∀ k ∈ rowKeys row, hasTimeslotsSub k = true → k = "timeslots")
    (hnd : (fields.map Prod.fst).Nodup) :
    (∀ k v, (k, v) ∈ fields → ∀ r2 ∈ (inlineUnpack ⟨[row]⟩ (some 1)).rows,
        rowLookup r2 ("timeslots_0" ++ "_" ++ k) = some v)
    ∧ (∀ r2 ∈ (inlineUnpack ⟨[row]⟩ (some 1)).rows, rowLookup r2 "timeslots_0" = none)
    ∧ (∀ r2 ∈ (inlineUnpack ⟨[row]⟩ (some 1)).rows, rowLookup r2 "timeslots" = none)
    ∧ (∀ r2 ∈ (inlineUnpack ⟨[row]⟩ (some 1)).rows, ∀ k : String,
        rowLookup r2 ("timeslots_1" ++ k) = none) := by
  have step1 : unpackListRow "timeslots" (some 1) row
      = rowSet (rowRemove row "timeslots") "timeslots_0" (JValue.obj fields) := by
    simp only [unpackListRow, hts]
    have htake : List.take 1 (JValue.obj fields :: e1 :: rest) = [JValue.obj fields] := by
      simp
    rw [htake]
    have henum : ([JValue.obj fields]).enum = [(0, JValue.obj fields)] := rfl
    rw [henum]
    simp only [List.foldl_cons, List.foldl_nil]
    have hkey : ("timeslots" ++ "_" ++ toString (0 : Nat) : String) = "timeslots_0" := rfl
    rw [hkey]
  have ht1 : Table.unpack_list ⟨[row]⟩ "timeslots" (some 1)
      = (⟨[rowSet (rowRemove row "timeslots") "timeslots_0" (JValue.obj fields)]⟩ : Table) := by
    simp [Table.unpack_list, step1]
  have hkeys : rowKeys (rowSet (rowRemove row "timeslots") "timeslots_0" (JValue.obj fields))
      = rowKeys (rowRemove (rowRemove row "timeslots") "timeslots_0") ++ ["timeslots_0"] := by
    simp [rowSet, rowKeys]
  have hfilempty : ∀ k ∈ rowKeys (rowRemove (rowRemove row "timeslots") "timeslots_0"),
      ¬ hasTimeslotsSub k = true := by
    intro k hk hts2
    obtain ⟨hk1, _⟩ := mem_keys_remove _ _ _ hk
    obtain ⟨hk3, hk4⟩ := mem_keys_remove _ _ _ hk1
    exact hk4 (honly k hk3 hts2)
  have hcols : (Table.columns
        (⟨[rowSet (rowRemove row "timeslots") "timeslots_0" (JValue.obj fields)]⟩ : Table)).filter
          (fun c => hasTimeslotsSub c) = ["timeslots_0"] := by
    show (rowKeys (rowSet (rowRemove row "timeslots") "timeslots_0" (JValue.obj fields))).filter
      (fun c => hasTimeslotsSub c) = ["timeslots_0"]
    rw [hkeys, List.filter_append, List.filter_eq_nil_iff.mpr hfilempty]
    rfl
  have hpipe : inlineUnpack ⟨[row]⟩ (some 1)
      = Table.unpack_dict
          (⟨[rowSet (rowRemove row "timeslots") "timeslots_0" (JValue.obj fields)]⟩ : Table)
          "timeslots_0" true := by
    simp only [inlineUnpack]
    rw [ht1, hcols]
    rfl
  have hlk : rowLookup (rowSet (rowRemove row "timeslots") "timeslots_0" (JValue.obj fields))
      "timeslots_0" = some (JValue.obj fields) := rowLookup_set_self _ _ _
  have hrow2 : (inlineUnpack ⟨[row]⟩ (some 1)).rows
      = [fields.foldl (fun acc p => rowSet acc ("timeslots_0" ++ "_" ++ p.1) p.2)
          (rowRemove (rowSet (rowRemove row "timeslots") "timeslots_0" (JValue.obj fields))
            "timeslots_0")] := by
    rw [hpipe]
    show [unpackDictRow "timeslots_0" true
        (rowSet (rowRemove row "timeslots") "timeslots_0" (JValue.obj fields))] = _
    simp only [unpackDictRow, hlk]
    rfl
  refine ⟨?_, ?_, ?_, ?_⟩
  · intro k v hkv r2 hr2
    rw [hrow2, List.mem_singleton] at hr2
    subst hr2
    exact rowLookup_foldl_set_mem (fun k => "timeslots_0" ++ "_" ++ k)
      (fun a b h => strAppendLeftCancel ("timeslots_0" ++ "_") a b h) fields _ k v hnd hkv
  · intro r2 hr2
    rw [hrow2, List.mem_singleton] at hr2
    subst hr2
    exact (rowLookup_foldl_set_ne (fun k => "timeslots_0" ++ "_" ++ k) fields _ "timeslots_0"
        (fun p _ => ts0u_ne_ts0 p.1)).trans
      (rowLookup_remove_self _ "timeslots_0")
  · intro r2 hr2
    rw [hrow2, List.mem_singleton] at hr2
    subst hr2
    exact (rowLookup_foldl_set_ne (fun k => "timeslots_0" ++ "_" ++ k) fields _ "timeslots"
        (fun p _ => ts0u_ne_ts p.1)).trans
      ((rowLookup_remove_ne _ "timeslots_0" "timeslots" (by decide)).trans
        ((rowLookup_set_ne _ "timeslots_0" "timeslots" _ (by decide)).trans
          (rowLookup_remove_self _ "timeslots")))
  · intro r2 hr2 k
    rw [hrow2, List.mem_singleton] at hr2
    subst hr2
    have hnotin : ("timeslots_1" ++ k) ∉ rowKeys row := by
      intro hmem
      exact ts1_ne_ts k (honly _ hmem (hasTS_ts1 k))
    exact (rowLookup_foldl_set_ne (fun k => "timeslots_0" ++ "_" ++ k) fields _
        ("timeslots_1" ++ k) (fun p _ => ts0u_ne_ts1 p.1 k)).trans
      ((rowLookup_remove_ne _ "timeslots_0" _ (ts1_ne_ts0 k)).trans
        ((rowLookup_set_ne _ "timeslots_0" _ _ (ts1_ne_ts0 k)).trans
          ((rowLookup_remove_ne _ "timeslots" _ (ts1_ne_ts k)).trans
            (rowLookup_not_mem_keys row _ hnotin))))

/-- The one-record row used as the C8 witness input. -/
def c8row : Row :=
  [("id", JValue.int 42), ("timeslots", JValue.list
    [JValue.obj [("start", JValue.int 1)], JValue.obj [("start", JValue.int 2)]])]

/-- C8 witness: on the concrete two-timeslot record the inline pipeline
with max one column yields timeslots_0_start and nothing else from the
list. -/
theorem c8_inline_witness :
    (inlineUnpack ⟨[c8row]⟩ (some 1)).rows
        = [[("id", JValue.int 42), ("timeslots_0_start", JValue.int 1)]]
    ∧ rowLookup [("id", JValue.int 42), ("timeslots_0_start", JValue.int 1)]
        ("timeslots_0" ++ "_" ++ "start") = some (JValue.int 1)
    ∧ rowLookup [("id", JValue.int 42), ("timeslots_0_start", JValue.int 1)] "timeslots_0" = none
    ∧ rowLookup [("id", JValue.int 42), ("timeslots_0_start", JValue.int 1)] "timeslots" = none
    ∧ rowLookup [("id", JValue.int 42), ("timeslots_0_start", JValue.int 1)]
        ("timeslots_1" ++ "") = none := by
  have hrows : (inlineUnpack ⟨[c8row]⟩ (some 1)).rows
      = [[("id", JValue.int 42), ("timeslots_0_start", JValue.int 1)]] := rfl
  have hmem : [("id", JValue.int 42), ("timeslots_0_start", JValue.int 1)]
      ∈ (inlineUnpack ⟨[c8row]⟩ (some 1)).rows := by
    rw [hrows]
    exact List.mem_singleton.mpr rfl
  have h := c8_inline c8row [("start", JValue.int 1)] (JValue.obj [("start", JValue.int 2)]) []
    rfl (by decide) (by decide)
  exact ⟨hrows,
    h.1 "start" (JValue.int 1) (List.mem_singleton.mpr rfl) _ hmem,
    h.2.1 _ hmem, h.2.2.1 _ hmem, h.2.2.2 _ hmem ""⟩
